import Mathlib

/-!
Verification of the weston-desktop-matchbox shell client (src/main.c).

Shallow embedding notes:
* C `double` values (cursor coordinates, scroll offset, font extents) are
  modelled as `ℚ`; the source never relies on rounding of doubles in the
  properties below.
* Wayland/cairo/GLib library calls are modelled by their documented and
  implemented behaviour (cairo's stride rule, GLib's `g_list_insert_sorted`
  walk, `wl_list_insert` prepending at the head).
* Fallible paths return `Option`: `none` models a crash / undefined
  behaviour (dereferencing the NULL buffer that `create_buffer` returns on
  allocation failure).
-/

namespace WestonMatchbox

/-- Constant `MENU_PADDING` (`#define MENU_PADDING (10)`) from main.c. -/
def MENU_PADDING : ℚ := 10

/-- Constant `BTN_LEFT` from linux/input-event-codes.h (0x110). -/
def BTN_LEFT : Nat := 272

/-- Constant `WL_POINTER_BUTTON_STATE_RELEASED` from the wayland core protocol. -/
def WL_POINTER_BUTTON_STATE_RELEASED : Nat := 0

/-- Constant `WL_POINTER_AXIS_VERTICAL_SCROLL` from the wayland core protocol. -/
def WL_POINTER_AXIS_VERTICAL_SCROLL : Nat := 0

/-- Flag bit `WL_OUTPUT_MODE_CURRENT` from the wayland core protocol. -/
def WL_OUTPUT_MODE_CURRENT : Nat := 1

/-- Stride rule `cairo_format_stride_for_width (CAIRO_FORMAT_RGB24, w)`: cairo computes
`(((bpp*w+7)/8) + (align-1)) & -align` with `bpp = 32` and `align = 4`. -/
def cairoStrideRGB24 (w : Nat) : Nat :=
  ((32 * w + 7) / 8 + 3) / 4 * 4

/-- Model of `struct buffer` from main.c (the wl_buffer handle, shm fd and pixel data
are external resources; the fields that drive pool management are kept). -/
structure Buffer where
  busy : Bool
  width : Nat
  height : Nat
  stride : Nat
deriving DecidableEq, Repr

/-- The geometry test used by both loops in `draw_background`:
`buffer->width == background->width && buffer->height == background->height
&& buffer->stride == stride`. -/
def bufferMatches (b : Buffer) (w h s : Nat) : Bool :=
  b.width == w && b.height == h && b.stride == s

/-- Function `attach_buffer`: `wl_surface_attach(...); buffer->busy = true;`. -/
def attach_buffer (b : Buffer) : Buffer :=
  { b with busy := true }

/-- Handler `buffer_release` (the compositor's `wl_buffer.release` event):
`buffer->busy = false;`. -/
def buffer_release (b : Buffer) : Buffer :=
  { b with busy := false }

/-- First loop of `draw_background`: remove (free) every buffer with
`!buffer->busy` whose geometry mismatches; i.e. keep a buffer iff it is busy
or matches exactly. -/
def pruneBuffers (w h s : Nat) (pool : List Buffer) : List Buffer :=
  pool.filter (fun b => b.busy || bufferMatches b w h s)

/-- Second loop of `draw_background`: find the first buffer with
`!buffer->busy` and exactly matching geometry (`found = true; break;`). -/
def findFreeBuffer (w h s : Nat) (pool : List Buffer) : Option Buffer :=
  pool.find? (fun b => !b.busy && bufferMatches b w h s)

/-- Effect on the pool of attaching the buffer that the second loop found:
the first free exactly-matching buffer becomes busy, everything else is
untouched. -/
def attachFirstFree (w h s : Nat) : List Buffer → List Buffer
  | [] => []
  | b :: bs =>
    if !b.busy && bufferMatches b w h s then attach_buffer b :: bs
    else b :: attachFirstFree w h s bs

/-- The scroll clamp inside `draw_background`:
`max_y_scroll = total_height - (height - MENU_PADDING*2)`; if positive,
`y_scroll = fmin(fmax(y_scroll, 0), max_y_scroll)`, else `y_scroll = 0`. -/
def clampScroll (count : Nat) (rowHeight : ℚ) (height : Nat) (y : ℚ) : ℚ :=
  let totalHeight : ℚ := count * rowHeight
  let maxYScroll : ℚ := totalHeight - ((height : ℚ) - MENU_PADDING * 2)
  if maxYScroll > 0 then min (max y 0) maxYScroll else 0

/-- Model of `struct background` from main.c, together with the `struct
desktop_surface base` fields that the background handlers read.  The
function pointers of the capability record are modelled as presence flags;
`extentsHeight` is `background->extents.height`, the font row height cached
by the last completed draw. -/
structure Background where
  buffers : List Buffer
  width : Nat
  height : Nat
  yScroll : ℚ
  frame : Bool
  needsDraw : Bool
  extentsHeight : ℚ
  cursor : String
  cursorX : ℚ
  cursorY : ℚ
  hasConfigure : Bool
deriving DecidableEq, Repr

/-- How one menu row is painted by the loop in `draw_background`. -/
inductive RowPaint
  | notDrawn
  | normal
  | highlighted
deriving DecidableEq, Repr

/-- The text loop of `draw_background`: starting at
`y = MENU_PADDING - y_scroll`, each entry is drawn iff
`y + extents.height >= 0 && y <= background->height`, with the highlight
colour iff `cursor_y > y && cursor_y <= y + extents.height`; `y` advances by
`extents.height` for every entry. -/
def paintMenuRows (cursorY rowHeight surfHeight : ℚ) : ℚ → Nat → List RowPaint
  | _, 0 => []
  | y, n + 1 =>
    (if 0 ≤ y + rowHeight ∧ y ≤ surfHeight then
       if cursorY > y ∧ cursorY ≤ y + rowHeight then RowPaint.highlighted
       else RowPaint.normal
     else RowPaint.notDrawn)
      :: paintMenuRows cursorY rowHeight surfHeight (y + rowHeight) n

/-- Top coordinate of menu row `i` in surface-local coordinates:
`MENU_PADDING - y_scroll + i * row_height` (the value of the loop variable
`y` at iteration `i`). -/
def rowTop (yScroll rowHeight : ℚ) (i : Nat) : ℚ :=
  MENU_PADDING - yScroll + i * rowHeight

/-- Function `draw_background`.  Environment inputs: `count` is the length of
`application_list`, `measuredHeight` the row height that
`cairo_font_extents` reports during this draw, `allocOk` whether
`create_buffer` succeeds (memfd/ftruncate/mmap).  `none` models the crash
when `create_buffer` returns NULL and the code passes the NULL pointer to
`wl_list_insert` and dereferences it. -/
def draw_background (count : Nat) (measuredHeight : ℚ) (allocOk : Bool)
    (bg : Background) : Option Background :=
  if bg.frame then
    some { bg with needsDraw := true }
  else
    let stride := cairoStrideRGB24 bg.width
    let pool := pruneBuffers bg.width bg.height stride bg.buffers
    let newScroll := clampScroll count measuredHeight bg.height bg.yScroll
    if (findFreeBuffer bg.width bg.height stride pool).isSome then
      some { bg with needsDraw := false, extentsHeight := measuredHeight,
                     yScroll := newScroll,
                     buffers := attachFirstFree bg.width bg.height stride pool,
                     frame := true }
    else if allocOk then
      some { bg with needsDraw := false, extentsHeight := measuredHeight,
                     yScroll := newScroll,
                     buffers := { busy := true, width := bg.width,
                                  height := bg.height, stride := stride } :: pool,
                     frame := true }
    else
      none

/-- Handler `background_frame_done`: destroy the callback (`frame = NULL`), then
redraw if `needs_draw` is set. -/
def background_frame_done (count : Nat) (measuredHeight : ℚ) (allocOk : Bool)
    (bg : Background) : Option Background :=
  let bg' := { bg with frame := false }
  if bg'.needsDraw then draw_background count measuredHeight allocOk bg'
  else some bg'

/-- Handler `background_pointer_axis`: on a vertical-scroll axis event add the delta
to `y_scroll` and redraw; other axes are ignored. -/
def background_pointer_axis (axis : Nat) (value : ℚ) (count : Nat)
    (measuredHeight : ℚ) (allocOk : Bool) (bg : Background) :
    Option Background :=
  if axis = WL_POINTER_AXIS_VERTICAL_SCROLL then
    draw_background count measuredHeight allocOk
      { bg with yScroll := bg.yScroll + value }
  else some bg

/-- Handler `background_pointer_button`: result is `some i` iff `launch_app` is
called for the application at index `i` of `application_list` (whose length
is `count`); `g_list_nth_data` returns NULL for an out-of-range index.  The
`guint` conversion of `menu_y / extents.height` truncates; for the guarded
path (`menu_y >= 0` with a positive row height) that is `Int.toNat ∘
Int.floor`. -/
def background_pointer_button (button state count : Nat) (bg : Background) :
    Option Nat :=
  if button = BTN_LEFT ∧ state = WL_POINTER_BUTTON_STATE_RELEASED ∧
      bg.extentsHeight ≠ 0 then
    let menuY := bg.cursorY + bg.yScroll - MENU_PADDING
    if 0 ≤ menuY then
      let idx : Nat := (⌊menuY / bg.extentsHeight⌋).toNat
      if idx < count then some idx else none
    else none
  else none

/-! ### Frame throttle

The redraw gate of `draw_background` / `background_frame_done`, projected
onto the fields it touches.  `outstanding` counts live `wl_callback`
objects for this surface: `draw_background` creates one per draw that
actually executes (`wl_surface_frame`), `background_frame_done` destroys
one (`wl_callback_destroy`).  Every pointer/configure handler reaches the
gate through `draw_background`, so traces over `request`/`frameDone` cover
all reachable `background` states. -/

/-- Events that drive the frame-throttle state of one background. -/
inductive ThrottleEvent
  | request
  | frameDone
deriving DecidableEq, Repr

/-- The fields of `struct background` that the throttle logic touches,
with the callback handle counted rather than a pointer. -/
structure ThrottleState where
  outstanding : Nat
  needsDraw : Bool
  draws : Nat
deriving DecidableEq, Repr

/-- The gate at the top of `draw_background`: if a callback is outstanding,
latch `needs_draw` and return without drawing; otherwise clear
`needs_draw`, perform the draw and request exactly one new frame
callback. -/
def throttleDraw (s : ThrottleState) : ThrottleState :=
  if s.outstanding ≠ 0 then { s with needsDraw := true }
  else { s with needsDraw := false, draws := s.draws + 1,
                outstanding := s.outstanding + 1 }

/-- Projection of `background_frame_done`: destroy the outstanding callback, then redraw
if `needs_draw` was latched.  The compositor fires a callback only if one
is outstanding; a spurious completion is a no-op. -/
def throttleFrameDone (s : ThrottleState) : ThrottleState :=
  if s.outstanding = 0 then s
  else
    let s' := { s with outstanding := s.outstanding - 1 }
    if s'.needsDraw then throttleDraw s' else s'

/-- One dispatched event. -/
def throttleStep (s : ThrottleState) : ThrottleEvent → ThrottleState
  | ThrottleEvent.request => throttleDraw s
  | ThrottleEvent.frameDone => throttleFrameDone s

/-- The `calloc`-zeroed initial background: no callback, no pending draw. -/
def throttleInit : ThrottleState :=
  { outstanding := 0, needsDraw := false, draws := 0 }

/-- State after dispatching a sequence of events from the initial state. -/
def throttleRun (evs : List ThrottleEvent) : ThrottleState :=
  evs.foldl throttleStep throttleInit

/-! ### Output registry -/

/-- Model of `struct output`: recorded mode size (uint32_t fields) and the lazily
provisioned background. -/
structure OutputState where
  width : Nat
  height : Nat
  background : Option Background
deriving DecidableEq, Repr

/-- The background that `output_done` builds: `calloc`-zeroed, empty buffer
list, configure handler and `"left_ptr"` cursor set, cursor position at the
`-1` sentinel. -/
def initBackground : Background :=
  { buffers := [], width := 0, height := 0, yScroll := 0, frame := false,
    needsDraw := false, extentsHeight := 0, cursor := "left_ptr",
    cursorX := -1, cursorY := -1, hasConfigure := true }

/-- Handler `output_mode`: record width/height only when the
`WL_OUTPUT_MODE_CURRENT` bit is set (int32_t values stored into uint32_t
fields). -/
def output_mode (flags : Nat) (w h : Int) (o : OutputState) : OutputState :=
  if flags &&& WL_OUTPUT_MODE_CURRENT ≠ 0 then
    { o with width := (w % 4294967296).toNat, height := (h % 4294967296).toNat }
  else o

/-- Handler `output_done`: when the output has no background yet, create one and
register it via `weston_desktop_shell_set_background` (the returned flag
records that call); otherwise do nothing. -/
def output_done (o : OutputState) : OutputState × Bool :=
  match o.background with
  | some _ => (o, false)
  | none => ({ o with background := some initBackground }, true)

/-! ### Application list -/

/-- An application entry: display name plus an opaque launch handle (the
`GAppInfo`), tagged here by its position in the enumeration order so that
tie order is observable. -/
structure AppEntry where
  name : String
  handle : Nat
deriving DecidableEq, Repr

/-- Comparison `strcmp` on the byte sequences of two names, as its sign.
UTF-8 byte-wise order coincides with code-point order, so the comparison
runs over the code points. -/
def strcmpChars : List Char → List Char → Int
  | [], [] => 0
  | [], _ :: _ => -1
  | _ :: _, [] => 1
  | a :: as, b :: bs =>
    if a.toNat < b.toNat then -1
    else if b.toNat < a.toNat then 1
    else strcmpChars as bs

/-- Comparator `sort_apps`: `g_strcmp0` of the two display names (both non-NULL). -/
def sort_apps (a b : AppEntry) : Int :=
  strcmpChars a.name.toList b.name.toList

/-- GLib's `g_list_insert_sorted`: walk the list while
`cmp (data, cur) > 0` and insert before the first element with `cmp ≤ 0`
(hence before existing equal elements); append if the walk runs off the
end. -/
def g_list_insert_sorted (cmp : α → α → Int) (x : α) : List α → List α
  | [] => [x]
  | y :: ys =>
    if cmp x y > 0 then y :: g_list_insert_sorted cmp x ys
    else x :: y :: ys

/-- The startup loop of `main`: every `g_app_info_should_show` entry of the
enumeration is inserted into `application_list` with
`g_list_insert_sorted (..., sort_apps)`. -/
def buildApplicationList (apps : List AppEntry)
    (shouldShow : AppEntry → Bool) : List AppEntry :=
  apps.foldl
    (fun acc app =>
      if shouldShow app then g_list_insert_sorted sort_apps app acc else acc)
    []

/-! ## Theorems -/

/-- Invariant of the frame-throttle machine: never more than one live
callback, and a latched `needs_draw` implies a callback is outstanding. -/
def ThrottleInv (s : ThrottleState) : Prop :=
  s.outstanding ≤ 1 ∧ (s.needsDraw = true → s.outstanding = 1)

lemma throttleInv_init : ThrottleInv throttleInit := by
  constructor <;> simp [throttleInit]

lemma throttleInv_step (s : ThrottleState) (e : ThrottleEvent)
    (h : ThrottleInv s) : ThrottleInv (throttleStep s e) := by
  obtain ⟨o, nd, d⟩ := s
  obtain ⟨h1, h2⟩ := h
  simp only [ThrottleInv] at h1 h2 ⊢
  cases e <;>
    simp only [throttleStep, throttleDraw, throttleFrameDone] <;>
    split_ifs <;> simp_all <;> omega

lemma throttleInv_run (evs : List ThrottleEvent) : ThrottleInv (throttleRun evs) := by
  rw [throttleRun]
  induction evs using List.reverseRecOn with
  | nil => exact throttleInv_init
  | append_singleton evs e ih =>
    rw [List.foldl_append, List.foldl_cons, List.foldl_nil]
    exact throttleInv_step _ e ih

/-- C2: over any interleaving of redraw requests and frame completions the
number of outstanding frame callbacks never exceeds one; a request while one
is outstanding performs no draw and only latches `needs_draw`; a request
while idle performs exactly one draw and leaves exactly one callback
outstanding; a completion that finds `needs_draw` latched performs exactly
one draw (the deferred one) and clears the latch. -/
theorem frame_throttle_at_most_one (evs : List ThrottleEvent) :
    (throttleRun evs).outstanding ≤ 1 ∧
    (∀ s : ThrottleState, s.outstanding ≠ 0 →
        throttleDraw s = { s with needsDraw := true }) ∧
    (∀ s : ThrottleState, s.outstanding = 0 →
        (throttleDraw s).draws = s.draws + 1 ∧
        (throttleDraw s).outstanding = 1 ∧
        (throttleDraw s).needsDraw = false) ∧
    (∀ s : ThrottleState, s.outstanding = 1 → s.needsDraw = true →
        (throttleFrameDone s).draws = s.draws + 1 ∧
        (throttleFrameDone s).needsDraw = false ∧
        (throttleFrameDone s).outstanding = 1) ∧
    (∀ s : ThrottleState, s.outstanding = 1 → s.needsDraw = false →
        throttleFrameDone s = { s with outstanding := 0 }) := by
  refine ⟨(throttleInv_run evs).1, ?_, ?_, ?_, ?_⟩
  · rintro ⟨o, nd, d⟩ hs; simp_all [throttleDraw]
  · rintro ⟨o, nd, d⟩ hs; simp_all [throttleDraw]
  · rintro ⟨o, nd, d⟩ h1 h2
    simp only at h1 h2; subst h1 h2
    simp [throttleFrameDone, throttleDraw]
  · rintro ⟨o, nd, d⟩ h1 h2
    simp only at h1 h2; subst h1 h2
    simp [throttleFrameDone]

/-- Witness for C2 at the trace request·request·frameDone and at concrete
states. -/
theorem frame_throttle_at_most_one_witness :
    (throttleRun [ThrottleEvent.request, ThrottleEvent.request,
        ThrottleEvent.frameDone]).outstanding ≤ 1 ∧
    throttleDraw ⟨1, false, 7⟩ = ⟨1, true, 7⟩ ∧
    (throttleDraw ⟨0, false, 7⟩).draws = 8 ∧
    (throttleFrameDone ⟨1, true, 7⟩).draws = 8 := by
  have h := frame_throttle_at_most_one
    [ThrottleEvent.request, ThrottleEvent.request, ThrottleEvent.frameDone]
  exact ⟨h.1, h.2.1 ⟨1, false, 7⟩ (by decide),
    (h.2.2.1 ⟨0, false, 7⟩ rfl).1, (h.2.2.2.1 ⟨1, true, 7⟩ rfl rfl).1⟩

/-- C7: in every reachable throttle state, `needs_draw` implies exactly one
frame callback is outstanding; `draw_background` sets `needs_draw` only when
a callback is outstanding and clears it whenever it actually draws; frame
completion with `needs_draw` latched destroys the old callback first, so the
re-dispatched draw really draws (draw count increases) and re-arms exactly
one callback with the latch cleared. -/
theorem needs_draw_only_while_outstanding (evs : List ThrottleEvent) :
    ((throttleRun evs).needsDraw = true → (throttleRun evs).outstanding = 1) ∧
    (∀ s : ThrottleState, (throttleDraw s).needsDraw = true → s.outstanding ≠ 0) ∧
    (∀ s : ThrottleState, s.outstanding = 0 → (throttleDraw s).needsDraw = false) ∧
    (∀ s : ThrottleState, s.outstanding = 1 → s.needsDraw = true →
        (throttleFrameDone s).needsDraw = false ∧
        (throttleFrameDone s).outstanding = 1 ∧
        (throttleFrameDone s).draws = s.draws + 1) := by
  refine ⟨(throttleInv_run evs).2, ?_, ?_, ?_⟩
  · rintro ⟨o, nd, d⟩ hs
    unfold throttleDraw at hs
    split_ifs at hs with h
    simpa using h
  · rintro ⟨o, nd, d⟩ hs; simp_all [throttleDraw]
  · rintro ⟨o, nd, d⟩ h1 h2
    simp only at h1 h2; subst h1 h2
    simp [throttleFrameDone, throttleDraw]

/-- Witness for C7 at a concrete trace and concrete states. -/
theorem needs_draw_only_while_outstanding_witness :
    ((throttleRun [ThrottleEvent.request, ThrottleEvent.request]).needsDraw = true →
      (throttleRun [ThrottleEvent.request, ThrottleEvent.request]).outstanding = 1) ∧
    (throttleDraw ⟨0, true, 3⟩).needsDraw = false ∧
    (throttleFrameDone ⟨1, true, 3⟩).needsDraw = false := by
  have h := needs_draw_only_while_outstanding
    [ThrottleEvent.request, ThrottleEvent.request]
  exact ⟨h.1, h.2.2.1 ⟨0, true, 3⟩ rfl, (h.2.2.2 ⟨1, true, 3⟩ rfl rfl).1⟩

/-- C6: before any draw has measured font metrics, `extents.height` is zero
(calloc-zeroed), the guard `background->extents.height` fails, and a
left-button release performs no hit test, no division and no launch. -/
theorem zero_row_height_no_launch (button state count : Nat) (bg : Background)
    (h : bg.extentsHeight = 0) :
    background_pointer_button button state count bg = none := by
  simp [background_pointer_button, h]

/-- Witness for C6: the freshly provisioned background has zero extents. -/
theorem zero_row_height_no_launch_witness :
    background_pointer_button BTN_LEFT WL_POINTER_BUTTON_STATE_RELEASED 3
      initBackground = none :=
  zero_row_height_no_launch BTN_LEFT WL_POINTER_BUTTON_STATE_RELEASED 3
    initBackground rfl

/-- C3 (code bug): when `create_buffer` fails and no pooled buffer matches,
`draw_background` passes the NULL result straight to `wl_list_insert` and
then dereferences it — the draw cycle is not skipped, the process crashes
(`none`), contradicting the recoverable-error design that `create_buffer`'s
logged NULL returns exist for. -/
theorem alloc_failure_crashes :
    draw_background 3 20 false
      { initBackground with width := 800, height := 600 } = none := by
  rfl

/-- C8: output provisioning is idempotent — the first `done` event on an
output with no background creates exactly one background (empty buffer
pool, configure handler and cursor name set, `-1` cursor sentinel) and
registers it via `weston_desktop_shell_set_background`; a `done` on an
output that already has one changes nothing and registers nothing; a mode
event records width/height exactly when the current-mode flag is set. -/
theorem output_provisioning_idempotent :
    (∀ o : OutputState, o.background = none →
        output_done o = ({ o with background := some initBackground }, true)) ∧
    (∀ o : OutputState, o.background.isSome →
        output_done o = (o, false)) ∧
    (∀ o : OutputState, (output_done (output_done o).1).1 = (output_done o).1) ∧
    initBackground.buffers = [] ∧
    initBackground.hasConfigure = true ∧
    initBackground.cursor = "left_ptr" ∧
    initBackground.cursorX = -1 ∧ initBackground.cursorY = -1 ∧
    (∀ (flags : Nat) (w h : Int) (o : OutputState),
        flags &&& WL_OUTPUT_MODE_CURRENT = 0 →
        output_mode flags w h o = o) ∧
    (∀ (flags : Nat) (w h : Int) (o : OutputState),
        flags &&& WL_OUTPUT_MODE_CURRENT ≠ 0 →
        output_mode flags w h o =
          { o with width := (w % 4294967296).toNat,
                   height := (h % 4294967296).toNat }) := by
  refine ⟨?_, ?_, ?_, rfl, rfl, rfl, rfl, rfl, ?_, ?_⟩
  · intro o h
    simp [output_done, h]
  · intro o h
    obtain ⟨b, hb⟩ := Option.isSome_iff_exists.mp h
    simp [output_done, hb]
  · intro o
    cases ho : o.background <;> simp [output_done, ho]
  · intro flags w h o hf
    simp [output_mode, hf]
  · intro flags w h o hf
    simp [output_mode, hf]

/-- Witness for C8 on a concrete output: mode 800×600 with the current
flag, then two `done` events. -/
theorem output_provisioning_idempotent_witness :
    output_mode 1 800 600 ⟨0, 0, none⟩ = ⟨800, 600, none⟩ ∧
    output_done ⟨800, 600, none⟩ =
      (⟨800, 600, some initBackground⟩, true) ∧
    output_done ⟨800, 600, some initBackground⟩ =
      (⟨800, 600, some initBackground⟩, false) := by
  have h := output_provisioning_idempotent
  refine ⟨?_, ?_, ?_⟩
  · have := h.2.2.2.2.2.2.2.2.2 1 800 600 ⟨0, 0, none⟩ (by decide)
    simpa using this
  · exact h.1 ⟨800, 600, none⟩ rfl
  · exact h.2.1 ⟨800, 600, some initBackground⟩ rfl

/-- The order `sort_apps` sorts by: name of `a` compares at most equal to
name of `b`. -/
def appLE (a b : AppEntry) : Prop := sort_apps a b ≤ 0

instance : DecidableRel appLE := fun a b =>
  (inferInstance : Decidable (sort_apps a b ≤ 0))

lemma strcmpChars_swap (a : List Char) : ∀ b : List Char,
    strcmpChars b a = -strcmpChars a b := by
  induction a with
  | nil => intro b; cases b <;> simp [strcmpChars]
  | cons x xs ih =>
    intro b
    cases b with
    | nil => simp [strcmpChars]
    | cons y ys =>
      simp only [strcmpChars]
      by_cases h1 : x.toNat < y.toNat
      · simp [h1, Nat.lt_asymm h1]
      · by_cases h2 : y.toNat < x.toNat
        · simp [h1, h2]
        · simp [h1, h2, ih ys]

lemma strcmpChars_trans (a : List Char) : ∀ b c : List Char,
    strcmpChars a b ≤ 0 → strcmpChars b c ≤ 0 → strcmpChars a c ≤ 0 := by
  induction a with
  | nil =>
    intro b c _ _
    cases c <;> simp [strcmpChars]
  | cons x xs ih =>
    intro b c h1 h2
    cases b with
    | nil => simp [strcmpChars] at h1
    | cons y ys =>
      cases c with
      | nil => simp [strcmpChars] at h2
      | cons z zs =>
        simp only [strcmpChars] at h1 h2 ⊢
        by_cases hxy : x.toNat < y.toNat
        · by_cases hxz : x.toNat < z.toNat
          · simp [hxz]
          · by_cases hyz : y.toNat < z.toNat
            · omega
            · by_cases hzy : z.toNat < y.toNat
              · rw [if_neg hyz, if_pos hzy] at h2; omega
              · omega
        · by_cases hyx : y.toNat < x.toNat
          · rw [if_neg hxy, if_pos hyx] at h1; omega
          · by_cases hyz : y.toNat < z.toNat
            · simp [show x.toNat < z.toNat by omega]
            · by_cases hzy : z.toNat < y.toNat
              · rw [if_neg hyz, if_pos hzy] at h2; omega
              · have hxz : ¬ x.toNat < z.toNat := by omega
                have hzx : ¬ z.toNat < x.toNat := by omega
                rw [if_neg hxy, if_neg hyx] at h1
                rw [if_neg hyz, if_neg hzy] at h2
                rw [if_neg hxz, if_neg hzx]
                exact ih ys zs h1 h2

instance : IsTotal AppEntry appLE :=
  ⟨fun a b => by
    unfold appLE sort_apps
    rcases le_or_lt (strcmpChars a.name.toList b.name.toList) 0 with h | h
    · exact Or.inl h
    · right
      rw [strcmpChars_swap]
      omega⟩

instance : IsTrans AppEntry appLE :=
  ⟨fun a b c hab hbc => strcmpChars_trans _ _ _ hab hbc⟩

/-- GLib's walk-while-greater insertion is exactly ordered insertion for
the "compares at most equal" relation: both place the new element before
the first element it does not strictly exceed. -/
lemma g_list_insert_sorted_eq_orderedInsert (x : AppEntry) (l : List AppEntry) :
    g_list_insert_sorted sort_apps x l = List.orderedInsert appLE x l := by
  induction l with
  | nil => rfl
  | cons y ys ih =>
    simp only [g_list_insert_sorted, List.orderedInsert]
    by_cases h : sort_apps x y > 0
    · rw [if_pos h, if_neg (show ¬ appLE x y from not_le.mpr h), ih]
    · rw [if_neg h, if_pos (show appLE x y from not_lt.mp h)]

lemma buildApplicationList_sorted (apps : List AppEntry)
    (shouldShow : AppEntry → Bool) :
    List.Sorted appLE (buildApplicationList apps shouldShow) := by
  unfold buildApplicationList
  have main : ∀ (l acc : List AppEntry), List.Sorted appLE acc →
      List.Sorted appLE
        (l.foldl (fun acc app =>
          if shouldShow app then g_list_insert_sorted sort_apps app acc
          else acc) acc) := by
    intro l
    induction l with
    | nil => intro acc h; simpa using h
    | cons a as ih =>
      intro acc h
      rw [List.foldl_cons]
      by_cases hs : shouldShow a
      · simp only [hs, if_true]
        refine ih _ ?_
        rw [g_list_insert_sorted_eq_orderedInsert]
        exact h.orderedInsert a acc
      · simp only [hs, if_false]
        exact ih _ h
  exact main apps [] (by simp)

/-- C9 counterexample: two entries with the same display name come out in
reverse of their input order (`g_list_insert_sorted` inserts before
existing equal elements), so the build is not stable under ties. -/
theorem app_sort_stability_cex :
    buildApplicationList [⟨"A", 0⟩, ⟨"A", 1⟩] (fun _ => true)
      = [⟨"A", 1⟩, ⟨"A", 0⟩] ∧
    ([(⟨"A", 1⟩ : AppEntry), ⟨"A", 0⟩] ≠ [⟨"A", 0⟩, ⟨"A", 1⟩]) := by
  exact ⟨by decide, by decide⟩

/-- C9 (amended): the application list is sorted ascending by display name
under case-sensitive byte comparison — in particular
`["Zed", "apple", "Box"]` comes out exactly `["Box", "Zed", "apple"]` —
but ties are anti-stable: entries with equal names appear in reverse
relative input order. -/
theorem app_list_sorted_ties_reversed :
    (∀ (apps : List AppEntry) (shouldShow : AppEntry → Bool),
        List.Sorted appLE (buildApplicationList apps shouldShow)) ∧
    buildApplicationList [⟨"Zed", 0⟩, ⟨"apple", 1⟩, ⟨"Box", 2⟩] (fun _ => true)
      = [⟨"Box", 2⟩, ⟨"Zed", 0⟩, ⟨"apple", 1⟩] ∧
    buildApplicationList [⟨"Same", 0⟩, ⟨"Same", 1⟩, ⟨"Same", 2⟩] (fun _ => true)
      = [⟨"Same", 2⟩, ⟨"Same", 1⟩, ⟨"Same", 0⟩] := by
  exact ⟨buildApplicationList_sorted, by decide, by decide⟩

lemma mem_attachFirstFree_of_busy {b : Buffer} (hb : b.busy = true)
    (w h s : Nat) : ∀ l : List Buffer, b ∈ l → b ∈ attachFirstFree w h s l := by
  intro l
  induction l with
  | nil => intro hmem; exact absurd hmem (List.not_mem_nil b)
  | cons x xs ih =>
    intro hmem
    rw [attachFirstFree]
    rcases List.mem_cons.mp hmem with hx | hxs
    · subst hx
      rw [if_neg (by simp [hb])]
      exact List.mem_cons_self b _
    · split
      · exact List.mem_cons_of_mem _ hxs
      · exact List.mem_cons_of_mem _ (ih hxs)

/-- The pool of a successfully drawn background is either untouched (draw
deferred), the pruned pool with the first free match attached, or the
pruned pool with one fresh busy buffer prepended. -/
lemma draw_background_some_buffers {count : Nat} {mh : ℚ} {allocOk : Bool}
    {bg bg' : Background}
    (h : draw_background count mh allocOk bg = some bg') :
    bg'.buffers = bg.buffers ∨
    bg'.buffers =
      attachFirstFree bg.width bg.height (cairoStrideRGB24 bg.width)
        (pruneBuffers bg.width bg.height (cairoStrideRGB24 bg.width)
          bg.buffers) ∨
    bg'.buffers =
      { busy := true, width := bg.width, height := bg.height,
        stride := cairoStrideRGB24 bg.width } ::
        pruneBuffers bg.width bg.height (cairoStrideRGB24 bg.width)
          bg.buffers := by
  unfold draw_background at h
  split at h
  · obtain rfl := Option.some.inj h
    left
    rfl
  · simp only [] at h
    split at h
    · obtain rfl := Option.some.inj h
      right; left; rfl
    · split at h
      · obtain rfl := Option.some.inj h
        right; right; rfl
      · exact absurd h (by simp)

lemma mem_of_mem_attachFirstFree_nonbusy {b : Buffer} (hb : b.busy = false)
    (w h s : Nat) : ∀ l : List Buffer, b ∈ attachFirstFree w h s l → b ∈ l := by
  intro l
  induction l with
  | nil => intro hmem; simpa [attachFirstFree] using hmem
  | cons x xs ih =>
    intro hmem
    rw [attachFirstFree] at hmem
    split at hmem
    · rcases List.mem_cons.mp hmem with hx | hxs
      · exfalso
        rw [hx] at hb
        simp [attach_buffer] at hb
      · exact List.mem_cons_of_mem _ hxs
    · rcases List.mem_cons.mp hmem with hx | hxs
      · exact hx ▸ List.mem_cons_self x xs
      · exact List.mem_cons_of_mem _ (ih hxs)

/-- C1: a busy buffer is never freed and never handed out for a new draw —
across any successful `draw_background` every busy pooled buffer survives
into the new pool, any non-busy buffer of the new pool was already pooled
(so a busy flag is never cleared by drawing), the reuse scan only ever
selects a non-busy buffer whose width, height and stride match exactly,
and `attach_buffer` is what sets `busy` while `buffer_release` (the
compositor's release event) is what clears it. -/
theorem busy_buffers_never_freed_or_reused (count : Nat) (measuredHeight : ℚ)
    (allocOk : Bool) (bg bg' : Background)
    (hdraw : draw_background count measuredHeight allocOk bg = some bg') :
    (∀ b ∈ bg.buffers, b.busy = true → b ∈ bg'.buffers) ∧
    (∀ b ∈ bg'.buffers, b.busy = false → b ∈ bg.buffers) ∧
    (∀ (w h s : Nat) (pool : List Buffer) (b : Buffer),
        findFreeBuffer w h s pool = some b →
        b.busy = false ∧ bufferMatches b w h s = true) ∧
    (∀ b : Buffer, (attach_buffer b).busy = true ∧
        (buffer_release b).busy = false) := by
  refine ⟨?_, ?_, ?_, fun b => ⟨rfl, rfl⟩⟩
  · intro b hmem hbusy
    have hprune : b ∈ pruneBuffers bg.width bg.height
        (cairoStrideRGB24 bg.width) bg.buffers := by
      rw [pruneBuffers]
      exact List.mem_filter.mpr ⟨hmem, by simp [hbusy]⟩
    rcases draw_background_some_buffers hdraw with h | h | h
    · rw [h]; exact hmem
    · rw [h]; exact mem_attachFirstFree_of_busy hbusy _ _ _ _ hprune
    · rw [h]; exact List.mem_cons_of_mem _ hprune
  · intro b hmem hnonbusy
    rcases draw_background_some_buffers hdraw with h | h | h
    · rw [h] at hmem; exact hmem
    · rw [h] at hmem
      exact List.mem_of_mem_filter
        (mem_of_mem_attachFirstFree_nonbusy hnonbusy _ _ _ _ hmem)
    · rw [h] at hmem
      rcases List.mem_cons.mp hmem with hx | hxs
      · exfalso
        rw [hx] at hnonbusy
        simp at hnonbusy
      · exact List.mem_of_mem_filter hxs
  · intro w h s pool b hfind
    have hp := List.find?_some hfind
    simp only [Bool.and_eq_true, Bool.not_eq_true'] at hp
    exact ⟨hp.1, hp.2⟩

/-- Witness for C1: a busy 4×4 buffer survives a draw that reallocates for
an 800×600 surface. -/
theorem busy_buffers_never_freed_or_reused_witness :
    (⟨true, 4, 4, 16⟩ : Buffer) ∈
      (⟨[⟨true, 800, 600, 3200⟩, ⟨true, 4, 4, 16⟩], 800, 600, 0, true, false,
          20, "left_ptr", -1, -1, true⟩ : Background).buffers :=
  (busy_buffers_never_freed_or_reused 3 20 true
      ⟨[⟨true, 4, 4, 16⟩], 800, 600, 0, false, false, 0, "left_ptr", -1, -1,
        true⟩
      ⟨[⟨true, 800, 600, 3200⟩, ⟨true, 4, 4, 16⟩], 800, 600, 0, true, false,
        20, "left_ptr", -1, -1, true⟩
      (by
        simp [draw_background, pruneBuffers, bufferMatches, findFreeBuffer,
          attachFirstFree, clampScroll, cairoStrideRGB24, MENU_PADDING]
        norm_num)).1 ⟨true, 4, 4, 16⟩ (by simp) rfl

/-- C4 counterexample: with a frame callback outstanding, the axis handler
adds the delta to `y_scroll` and `draw_background` defers (latching
`needs_draw`) without clamping, so `y_scroll = -5` escapes
`[0, max 0 (total - visible)]` in a reachable state. -/
theorem scroll_clamp_cex :
    background_pointer_axis WL_POINTER_AXIS_VERTICAL_SCROLL (-5) 3 20 true
        ⟨[], 800, 600, 0, true, false, 20, "left_ptr", -1, -1, true⟩ =
      some ⟨[], 800, 600, -5, true, true, 20, "left_ptr", -1, -1, true⟩ ∧
    ¬ (0 : ℚ) ≤ -5 := by
  constructor
  · norm_num [background_pointer_axis, draw_background,
      WL_POINTER_AXIS_VERTICAL_SCROLL]
  · norm_num

lemma clampScroll_bounds (count : Nat) (mh : ℚ) (height : Nat) (y : ℚ) :
    0 ≤ clampScroll count mh height y ∧
    clampScroll count mh height y ≤
      max 0 ((count : ℚ) * mh - ((height : ℚ) - MENU_PADDING * 2)) ∧
    ((count : ℚ) * mh ≤ (height : ℚ) - MENU_PADDING * 2 →
      clampScroll count mh height y = 0) := by
  unfold clampScroll
  simp only []
  split_ifs with h
  · refine ⟨le_min (le_max_right y 0) h.le, ?_, fun hc => ?_⟩
    · exact le_trans (min_le_right _ _) (le_max_right _ _)
    · exfalso
      have : (count : ℚ) * mh - ((height : ℚ) - MENU_PADDING * 2) ≤ 0 := by
        linarith
      linarith
  · exact ⟨le_refl 0, le_max_left _ _, fun _ => rfl⟩

lemma draw_background_yScroll {count : Nat} {mh : ℚ} {allocOk : Bool}
    {bg bg' : Background} (hframe : bg.frame = false)
    (h : draw_background count mh allocOk bg = some bg') :
    bg'.yScroll = clampScroll count mh bg.height bg.yScroll := by
  unfold draw_background at h
  rw [if_neg (by simp [hframe])] at h
  simp only [] at h
  split at h
  · obtain rfl := Option.some.inj h
    rfl
  · split at h
    · obtain rfl := Option.some.inj h
      rfl
    · exact absurd h (by simp)

/-- C4 (amended): the clamp happens inside the draw, so the invariant holds
for every axis event whose draw actually executes — whenever no frame
callback is outstanding, the vertical-scroll handler leaves `y_scroll`
within `[0, max 0 (count·rowHeight - (height - 2·MENU_PADDING))]`, and at
`0` when the menu fits; while a callback is outstanding the offset is
transiently unclamped until the deferred draw runs (see the
counterexample). -/
theorem scroll_clamped_when_draw_runs (value mh : ℚ) (count : Nat)
    (allocOk : Bool) (bg bg' : Background) (hframe : bg.frame = false)
    (h : background_pointer_axis WL_POINTER_AXIS_VERTICAL_SCROLL value count mh
          allocOk bg = some bg') :
    0 ≤ bg'.yScroll ∧
    bg'.yScroll ≤
      max 0 ((count : ℚ) * mh - ((bg.height : ℚ) - MENU_PADDING * 2)) ∧
    ((count : ℚ) * mh ≤ (bg.height : ℚ) - MENU_PADDING * 2 →
      bg'.yScroll = 0) := by
  unfold background_pointer_axis at h
  rw [if_pos rfl] at h
  have hframe' : ({ bg with yScroll := bg.yScroll + value } :
      Background).frame = false := hframe
  have hy := draw_background_yScroll hframe' h
  rw [hy]
  exact clampScroll_bounds count mh bg.height (bg.yScroll + value)

/-- Witness for C4's amended claim: a scroll of +100 on an idle 800×600
background with 100 rows of height 20 lands at 100, inside the clamp
range. -/
theorem scroll_clamped_when_draw_runs_witness :
    0 ≤ (⟨[⟨true, 800, 600, 3200⟩], 800, 600, 100, true, false, 20,
        "left_ptr", -1, -1, true⟩ : Background).yScroll :=
  (scroll_clamped_when_draw_runs 100 20 100 true
      ⟨[], 800, 600, 0, false, false, 0, "left_ptr", -1, -1, true⟩
      ⟨[⟨true, 800, 600, 3200⟩], 800, 600, 100, true, false, 20, "left_ptr",
        -1, -1, true⟩
      rfl
      (by
        simp [background_pointer_axis, draw_background, pruneBuffers,
          bufferMatches, findFreeBuffer, attachFirstFree, clampScroll,
          cairoStrideRGB24, MENU_PADDING, WL_POINTER_AXIS_VERTICAL_SCROLL]
        norm_num)).1

lemma background_pointer_button_some_iff (count : Nat) (bg : Background)
    (hH : bg.extentsHeight ≠ 0) (i : Nat) :
    background_pointer_button BTN_LEFT WL_POINTER_BUTTON_STATE_RELEASED count
        bg = some i ↔
      0 ≤ bg.cursorY + bg.yScroll - MENU_PADDING ∧
      i = (⌊(bg.cursorY + bg.yScroll - MENU_PADDING) /
          bg.extentsHeight⌋).toNat ∧
      i < count := by
  unfold background_pointer_button
  rw [if_pos ⟨rfl, rfl, hH⟩]
  simp only []
  by_cases hm : 0 ≤ bg.cursorY + bg.yScroll - MENU_PADDING
  · rw [if_pos hm]
    by_cases hidx : (⌊(bg.cursorY + bg.yScroll - MENU_PADDING) /
        bg.extentsHeight⌋).toNat < count
    · rw [if_pos hidx]
      constructor
      · intro hh
        obtain rfl := (Option.some.inj hh).symm
        exact ⟨hm, rfl, hidx⟩
      · rintro ⟨-, rfl, -⟩
        rfl
    · rw [if_neg hidx]
      constructor
      · intro hh
        exact absurd hh (by simp)
      · rintro ⟨-, rfl, hc⟩
        exact absurd hc hidx
  · rw [if_neg hm]
    constructor
    · intro hh
      exact absurd hh (by simp)
    · rintro ⟨hc, -, -⟩
      exact absurd hc hm

/-- C5: with a positive cached row height, a left-button release launches
exactly the entry at `⌊(cursor_y + y_scroll - MENU_PADDING) / row_height⌋`
— and only when that `menu_y` is non-negative and the index is in range
(`g_list_nth_data` yields NULL past the end); a negative `menu_y` launches
nothing, and no other button or button state launches anything. -/
theorem pointer_button_hit_test (count : Nat) (bg : Background)
    (hH : 0 < bg.extentsHeight) :
    (∀ i : Nat,
        background_pointer_button BTN_LEFT WL_POINTER_BUTTON_STATE_RELEASED
            count bg = some i ↔
          0 ≤ bg.cursorY + bg.yScroll - MENU_PADDING ∧
          (i : ℤ) = ⌊(bg.cursorY + bg.yScroll - MENU_PADDING) /
              bg.extentsHeight⌋ ∧
          i < count) ∧
    (bg.cursorY + bg.yScroll - MENU_PADDING < 0 →
        background_pointer_button BTN_LEFT WL_POINTER_BUTTON_STATE_RELEASED
          count bg = none) ∧
    (∀ button state : Nat,
        button ≠ BTN_LEFT ∨ state ≠ WL_POINTER_BUTTON_STATE_RELEASED →
        background_pointer_button button state count bg = none) := by
  refine ⟨?_, ?_, ?_⟩
  · intro i
    rw [background_pointer_button_some_iff count bg hH.ne' i]
    constructor
    · rintro ⟨hm, rfl, hc⟩
      have hf : 0 ≤ ⌊(bg.cursorY + bg.yScroll - MENU_PADDING) /
          bg.extentsHeight⌋ :=
        Int.floor_nonneg.mpr (div_nonneg hm hH.le)
      exact ⟨hm, Int.toNat_of_nonneg hf, hc⟩
    · rintro ⟨hm, hi, hc⟩
      refine ⟨hm, ?_, hc⟩
      rw [← hi]
      simp
  · intro hneg
    unfold background_pointer_button
    rw [if_pos ⟨rfl, rfl, hH.ne'⟩]
    simp only []
    rw [if_neg (not_le.mpr hneg)]
  · intro button state hbs
    unfold background_pointer_button
    rw [if_neg ?_]
    rintro ⟨h1, h2, -⟩
    exact hbs.elim (fun hx => hx h1) (fun hx => hx h2)

/-- Witness for C5: cursor at y = 35 with row height 20 and no scroll gives
`menu_y = 25` and launches entry 1 of 3. -/
theorem pointer_button_hit_test_witness :
    background_pointer_button BTN_LEFT WL_POINTER_BUTTON_STATE_RELEASED 3
      ⟨[], 800, 600, 0, false, false, 20, "left_ptr", -1, 35, true⟩ =
      some 1 := by
  have h := pointer_button_hit_test 3
    ⟨[], 800, 600, 0, false, false, 20, "left_ptr", -1, 35, true⟩
    (by norm_num)
  refine (h.1 1).mpr ⟨by norm_num [MENU_PADDING], ?_, by norm_num⟩
  have e1 : (35 : ℚ) + 0 - MENU_PADDING = 25 := by
    norm_num [MENU_PADDING]
  show (1 : ℤ) = ⌊((⟨[], 800, 600, 0, false, false, 20, "left_ptr", -1, 35,
      true⟩ : Background).cursorY + 0 - MENU_PADDING) / 20⌋
  rw [show ((⟨[], 800, 600, 0, false, false, 20, "left_ptr", -1, 35,
      true⟩ : Background).cursorY + 0 - MENU_PADDING) / 20 = 25 / 20 by
    rw [show (⟨[], 800, 600, 0, false, false, 20, "left_ptr", -1, 35,
      true⟩ : Background).cursorY = 35 from rfl, e1]]
  symm
  rw [Int.floor_eq_iff]
  norm_num

lemma paintMenuRows_get? (cursorY rowHeight surfHeight : ℚ) :
    ∀ (n i : Nat) (y : ℚ),
      (paintMenuRows cursorY rowHeight surfHeight y n).get? i =
        if i < n then
          some (if 0 ≤ y + (i : ℚ) * rowHeight + rowHeight ∧
                    y + (i : ℚ) * rowHeight ≤ surfHeight then
                  if cursorY > y + (i : ℚ) * rowHeight ∧
                      cursorY ≤ y + (i : ℚ) * rowHeight + rowHeight then
                    RowPaint.highlighted
                  else RowPaint.normal
                else RowPaint.notDrawn)
        else none := by
  intro n
  induction n with
  | zero =>
    intro i y
    simp [paintMenuRows]
  | succ m ih =>
    intro i y
    cases i with
    | zero =>
      rw [paintMenuRows]
      simp
    | succ j =>
      rw [paintMenuRows, List.get?_cons_succ, ih j (y + rowHeight)]
      have e : y + rowHeight + (j : ℚ) * rowHeight =
          y + ((j + 1 : ℕ) : ℚ) * rowHeight := by
        push_cast
        ring
      rw [e]
      simp only [Nat.succ_lt_succ_iff]

/-- C10: the renderer highlights entry `i` exactly when `cursor_y` lies in
the half-open interval `(row_top i, row_top i + H]` (strict at the top,
closed at the bottom), while the button handler launches entry `i` exactly
when `cursor_y` lies in the opposite interval `[row_top i, row_top i + H)`;
consequently a release with `cursor_y` exactly on row `i`'s top edge
(`i ≥ 1`) highlights entry `i - 1` but launches entry `i`. -/
theorem highlight_and_hit_test_intervals (count : Nat) (bg : Background)
    (hH : 0 < bg.extentsHeight) (hcy0 : 0 ≤ bg.cursorY)
    (hcyh : bg.cursorY ≤ (bg.height : ℚ)) :
    (∀ i : Nat, i < count →
        ((paintMenuRows bg.cursorY bg.extentsHeight (bg.height)
            (MENU_PADDING - bg.yScroll) count).get? i =
            some RowPaint.highlighted ↔
          rowTop bg.yScroll bg.extentsHeight i < bg.cursorY ∧
          bg.cursorY ≤ rowTop bg.yScroll bg.extentsHeight i +
            bg.extentsHeight)) ∧
    (∀ i : Nat,
        background_pointer_button BTN_LEFT WL_POINTER_BUTTON_STATE_RELEASED
            count bg = some i ↔
          i < count ∧
          rowTop bg.yScroll bg.extentsHeight i ≤ bg.cursorY ∧
          bg.cursorY < rowTop bg.yScroll bg.extentsHeight i +
            bg.extentsHeight) ∧
    (∀ i : Nat, 1 ≤ i → i < count →
        bg.cursorY = rowTop bg.yScroll bg.extentsHeight i →
        (paintMenuRows bg.cursorY bg.extentsHeight (bg.height)
            (MENU_PADDING - bg.yScroll) count).get? (i - 1) =
          some RowPaint.highlighted ∧
        background_pointer_button BTN_LEFT WL_POINTER_BUTTON_STATE_RELEASED
          count bg = some i ∧ i - 1 ≠ i) := by
  have hpaint : ∀ i : Nat, i < count →
      ((paintMenuRows bg.cursorY bg.extentsHeight (bg.height)
          (MENU_PADDING - bg.yScroll) count).get? i =
          some RowPaint.highlighted ↔
        rowTop bg.yScroll bg.extentsHeight i < bg.cursorY ∧
        bg.cursorY ≤ rowTop bg.yScroll bg.extentsHeight i +
          bg.extentsHeight) := by
    intro i hi
    rw [paintMenuRows_get? bg.cursorY bg.extentsHeight (bg.height) count i
      (MENU_PADDING - bg.yScroll), if_pos hi]
    have etop : MENU_PADDING - bg.yScroll + (i : ℚ) * bg.extentsHeight =
        rowTop bg.yScroll bg.extentsHeight i := by
      rw [rowTop]
    rw [etop]
    constructor
    · intro hsome
      obtain heq := Option.some.inj hsome
      split_ifs at heq with hvis hhl <;>
        first
          | exact hhl
          | exact absurd heq (by simp)
    · intro hint
      have hvis : 0 ≤ rowTop bg.yScroll bg.extentsHeight i +
            bg.extentsHeight ∧
          rowTop bg.yScroll bg.extentsHeight i ≤ (bg.height : ℚ) := by
        constructor
        · linarith [hint.2]
        · linarith [hint.1]
      rw [if_pos hvis, if_pos hint]
  have hbutton : ∀ i : Nat,
      background_pointer_button BTN_LEFT WL_POINTER_BUTTON_STATE_RELEASED
          count bg = some i ↔
        i < count ∧
        rowTop bg.yScroll bg.extentsHeight i ≤ bg.cursorY ∧
        bg.cursorY < rowTop bg.yScroll bg.extentsHeight i +
          bg.extentsHeight := by
    intro i
    rw [background_pointer_button_some_iff count bg hH.ne' i]
    constructor
    · rintro ⟨hm, rfl, hc⟩
      have hf : 0 ≤ ⌊(bg.cursorY + bg.yScroll - MENU_PADDING) /
          bg.extentsHeight⌋ :=
        Int.floor_nonneg.mpr (div_nonneg hm hH.le)
      set f := ⌊(bg.cursorY + bg.yScroll - MENU_PADDING) /
          bg.extentsHeight⌋ with hfdef
      have hfl := Int.floor_le ((bg.cursorY + bg.yScroll - MENU_PADDING) /
          bg.extentsHeight)
      have hfu := Int.lt_floor_add_one ((bg.cursorY + bg.yScroll -
          MENU_PADDING) / bg.extentsHeight)
      rw [← hfdef] at hfl hfu
      have hcast : ((f.toNat : ℕ) : ℚ) = (f : ℚ) := by
        exact_mod_cast Int.toNat_of_nonneg hf
      have h1 : (f : ℚ) * bg.extentsHeight ≤
          bg.cursorY + bg.yScroll - MENU_PADDING := by
        rw [← le_div_iff hH]
        exact hfl
      have h2 : bg.cursorY + bg.yScroll - MENU_PADDING <
          ((f : ℚ) + 1) * bg.extentsHeight := by
        rw [← div_lt_iff hH]
        exact_mod_cast hfu
      refine ⟨hc, ?_, ?_⟩
      · rw [rowTop, hcast]
        linarith
      · rw [rowTop, hcast]
        linarith
    · rintro ⟨hc, hlo, hhi⟩
      rw [rowTop] at hlo hhi
      have hm : 0 ≤ bg.cursorY + bg.yScroll - MENU_PADDING := by
        have : 0 ≤ (i : ℚ) * bg.extentsHeight :=
          mul_nonneg (Nat.cast_nonneg i) hH.le
        linarith
      refine ⟨hm, ?_, hc⟩
      have hfeq : ⌊(bg.cursorY + bg.yScroll - MENU_PADDING) /
          bg.extentsHeight⌋ = (i : ℤ) := by
        rw [Int.floor_eq_iff]
        constructor
        · rw [le_div_iff hH]
          push_cast
          linarith
        · rw [div_lt_iff hH]
          push_cast
          linarith
      rw [hfeq]
      simp
  refine ⟨hpaint, hbutton, ?_⟩
  intro i h1i hic hcy
  have hcast : ((i - 1 : ℕ) : ℚ) = (i : ℚ) - 1 := by
    push_cast [h1i]
    ring
  have htop : rowTop bg.yScroll bg.extentsHeight (i - 1) =
      rowTop bg.yScroll bg.extentsHeight i - bg.extentsHeight := by
    rw [rowTop, rowTop, hcast]
    ring
  refine ⟨?_, ?_, by omega⟩
  · rw [hpaint (i - 1) (by omega), htop, hcy]
    constructor
    · linarith
    · linarith
  · rw [hbutton i]
    refine ⟨hic, le_of_eq hcy.symm, ?_⟩
    rw [hcy]
    linarith

/-- The boundary configuration for C10's witness: row height 10, no
scroll, cursor exactly on row 1's top edge (y = 20). -/
def bgBoundary : Background :=
  ⟨[], 800, 600, 0, false, false, 10, "left_ptr", -1, 20, true⟩

/-- Witness for C10: at the shared boundary the renderer highlights entry
0 while the click launches entry 1. -/
theorem highlight_and_hit_test_intervals_witness :
    (paintMenuRows bgBoundary.cursorY bgBoundary.extentsHeight
        (bgBoundary.height) (MENU_PADDING - bgBoundary.yScroll) 3).get? 0 =
      some RowPaint.highlighted ∧
    background_pointer_button BTN_LEFT WL_POINTER_BUTTON_STATE_RELEASED 3
      bgBoundary = some 1 := by
  have h := (highlight_and_hit_test_intervals 3 bgBoundary
      (by norm_num [bgBoundary]) (by norm_num [bgBoundary])
      (by norm_num [bgBoundary])).2.2 1 (by norm_num) (by norm_num)
      (by norm_num [bgBoundary, rowTop, MENU_PADDING])
  exact ⟨h.1, h.2.1⟩

end WestonMatchbox
